import Mathlib

/-!
Shallow embedding of the time-based garbage collector in src/main.cpp.

Pointers are modelled as natural numbers, with 0 standing for nullptr.
Timestamps are natural numbers counting whole seconds, matching the
truncating cast duration_cast to seconds in the source; the
truncated subtraction now - t0 on Nat agrees with the C++ comparison
because a negative age also fails the threshold test there.
Side effects are reified: operations that call free return the list of
addresses they passed to free, and operations that return void in C++
return the updated registry state (and, for addMemoryBlock, which branch
of the function executed).
-/

/-- Embeds struct MemoryBlock (src/main.cpp lines 11 to 17): address, size,
allocation timestamp, and the freed flag that defaults to false. -/
structure MemoryBlock where
  address : Nat
  size : Nat
  allocationTime : Nat
  isFreed : Bool := false
  deriving DecidableEq, Repr

/-- Outcome of the branch taken by addMemoryBlock: the null guard early
return (the InvalidAddress condition of the documentation) or the
push_back path. The C++ function returns void; this component only
records which branch executed. -/
inductive RegisterResult where
  | invalidAddress
  | ok
  deriving DecidableEq, Repr

/-- Embeds GarbageCollector::addMemoryBlock (src/main.cpp lines 53 to 61):
a null address returns early with no insertion; otherwise a new block with
the current time and the default freed flag is appended to the vector.
There is no check against already registered addresses. -/
def addMemoryBlock (blocks : List MemoryBlock) (address size now : Nat) :
    RegisterResult × List MemoryBlock :=
  if address = 0 then (RegisterResult.invalidAddress, blocks)
  else (RegisterResult.ok, blocks ++ [{ address := address, size := size, allocationTime := now }])

/-- Embeds GarbageCollector::createObject (src/main.cpp lines 117 to 121):
takes the lock and forwards to addMemoryBlock (the isReallocation and
prevAddr parameters of addMemoryBlock are unused by the source). -/
def createObject (blocks : List MemoryBlock) (address size now : Nat) :
    RegisterResult × List MemoryBlock :=
  addMemoryBlock blocks address size now

/-- Embeds GarbageCollector::checkExistingAllocation (src/main.cpp lines
105 to 114): linear scan for any block with the given address. -/
def checkExistingAllocation (blocks : List MemoryBlock) (address : Nat) : Bool :=
  blocks.any (fun b => b.address = address)

/-- The fixed retention threshold used by collectGarbage
(src/main.cpp line 77: duration at least 5 seconds). -/
def retentionWindow : Nat := 5

/-- Embeds GarbageCollector::collectGarbage (src/main.cpp lines 64 to 90):
one pass over the vector; blocks whose freed flag is set are skipped (and
thereby dropped), blocks aged at least the retention window are freed and
dropped, all others are kept in order. Returns the addresses passed to
free together with the new vector. -/
def collectGarbage (blocks : List MemoryBlock) (now : Nat) :
    List Nat × List MemoryBlock :=
  match blocks with
  | [] => ([], [])
  | b :: bs =>
    let r := collectGarbage bs now
    if b.isFreed then r
    else if retentionWindow ≤ now - b.allocationTime then (b.address :: r.1, r.2)
    else (r.1, b :: r.2)

/-- Embeds the release loop of the destructor of GarbageCollector
(src/main.cpp lines 148 to 171): every block with a non-null address is
passed to free regardless of age, then the vector is cleared. Returns the
addresses passed to free together with the cleared vector. -/
def destroyAll (blocks : List MemoryBlock) : List Nat × List MemoryBlock :=
  ((blocks.filter (fun b => b.address ≠ 0)).map (fun b => b.address), [])

/-- One externally invokable registry operation, with the clock reading at
the moment it runs carried as data: a createObject call, a collectGarbage
sweep (periodic or manual), or the destructor release loop. -/
inductive GCOp where
  | regOp (address size time : Nat)
  | sweepOp (time : Nat)
  | shutdownOp
  deriving DecidableEq, Repr

/-- Apply one operation to a pair of registry state and cumulative log of
addresses passed to free. -/
def applyOp (s : List MemoryBlock × List Nat) (op : GCOp) :
    List MemoryBlock × List Nat :=
  match op with
  | GCOp.regOp a sz t => ((addMemoryBlock s.1 a sz t).2, s.2)
  | GCOp.sweepOp t =>
    let r := collectGarbage s.1 t
    (r.2, s.2 ++ r.1)
  | GCOp.shutdownOp =>
    let r := destroyAll s.1
    (r.2, s.2 ++ r.1)

/-- Run a sequence of registry operations from the empty registry,
accumulating the log of addresses passed to free. -/
def runOps (ops : List GCOp) : List MemoryBlock × List Nat :=
  ops.foldl applyOp ([], [])

/-- The addresses submitted by the register operations of a trace, in
order, the null ones included. -/
def registeredAddrs : List GCOp → List Nat
  | [] => []
  | GCOp.regOp a _ _ :: ops => a :: registeredAddrs ops
  | _ :: ops => registeredAddrs ops

/-- The addresses of the blocks of a registry state, in order. -/
def addrsOf (blocks : List MemoryBlock) : List Nat :=
  blocks.map (fun b => b.address)

theorem collectGarbage_cons_freed {b : MemoryBlock} {bs : List MemoryBlock} {now : Nat}
    (hf : b.isFreed = true) :
    collectGarbage (b :: bs) now = collectGarbage bs now := by
  simp [collectGarbage, hf]

theorem collectGarbage_cons_old {b : MemoryBlock} {bs : List MemoryBlock} {now : Nat}
    (hf : b.isFreed = false) (ho : retentionWindow ≤ now - b.allocationTime) :
    collectGarbage (b :: bs) now =
      (b.address :: (collectGarbage bs now).1, (collectGarbage bs now).2) := by
  simp [collectGarbage, hf, ho]

theorem collectGarbage_cons_young {b : MemoryBlock} {bs : List MemoryBlock} {now : Nat}
    (hf : b.isFreed = false) (ho : now - b.allocationTime < retentionWindow) :
    collectGarbage (b :: bs) now =
      ((collectGarbage bs now).1, b :: (collectGarbage bs now).2) := by
  simp [collectGarbage, hf, Nat.not_le.mpr ho]

theorem collectGarbage_keeps_young {b : MemoryBlock} {blocks : List MemoryBlock} {now : Nat}
    (hb : b ∈ blocks) (hf : b.isFreed = false)
    (hy : now - b.allocationTime < retentionWindow) :
    b ∈ (collectGarbage blocks now).2 := by
  induction blocks with
  | nil => cases hb
  | cons c cs ih =>
    rcases List.mem_cons.mp hb with h | h
    · subst h
      simp only [collectGarbage, hf, Bool.false_eq_true, if_false,
        Nat.not_le.mpr hy, if_false, List.mem_cons]
      exact Or.inl trivial
    · have htail := ih h
      simp only [collectGarbage]
      split
      · exact htail
      · split
        · exact htail
        · exact List.mem_cons_of_mem _ htail

theorem collectGarbage_frees_old {b : MemoryBlock} {blocks : List MemoryBlock} {now : Nat}
    (hb : b ∈ blocks) (hf : b.isFreed = false)
    (ho : retentionWindow ≤ now - b.allocationTime) :
    b.address ∈ (collectGarbage blocks now).1 := by
  induction blocks with
  | nil => cases hb
  | cons c cs ih =>
    rcases List.mem_cons.mp hb with h | h
    · subst h
      simp only [collectGarbage, hf, Bool.false_eq_true, if_false, if_pos ho, List.mem_cons]
      exact Or.inl trivial
    · have htail := ih h
      simp only [collectGarbage]
      split
      · exact htail
      · split
        · exact List.mem_cons_of_mem _ htail
        · exact htail

theorem collectGarbage_kept_spec {c : MemoryBlock} {blocks : List MemoryBlock} {now : Nat}
    (hc : c ∈ (collectGarbage blocks now).2) :
    c ∈ blocks ∧ c.isFreed = false ∧ now - c.allocationTime < retentionWindow := by
  induction blocks with
  | nil => cases hc
  | cons b bs ih =>
    simp only [collectGarbage] at hc
    by_cases hfb : b.isFreed
    · rw [if_pos hfb] at hc
      rcases ih hc with ⟨h1, h2, h3⟩
      exact ⟨List.mem_cons_of_mem _ h1, h2, h3⟩
    · rw [if_neg hfb] at hc
      by_cases hage : retentionWindow ≤ now - b.allocationTime
      · rw [if_pos hage] at hc
        rcases ih hc with ⟨h1, h2, h3⟩
        exact ⟨List.mem_cons_of_mem _ h1, h2, h3⟩
      · rw [if_neg hage] at hc
        rcases List.mem_cons.mp hc with h | h
        · subst h
          exact ⟨List.mem_cons_self _ _, Bool.eq_false_iff.mpr hfb, Nat.not_le.mp hage⟩
        · rcases ih h with ⟨h1, h2, h3⟩
          exact ⟨List.mem_cons_of_mem _ h1, h2, h3⟩

theorem collectGarbage_removes_old {b : MemoryBlock} {blocks : List MemoryBlock} {now : Nat}
    (ho : retentionWindow ≤ now - b.allocationTime) :
    b ∉ (collectGarbage blocks now).2 := by
  intro hmem
  exact absurd ho (Nat.not_le.mpr (collectGarbage_kept_spec hmem).2.2)

/-- C1: a record allocated at time t0 with the fixed retention window of 5
time units is retained unchanged by a sweep at time now when now - t0 is
below the window, and is freed (its address passed to free) and removed
from the live set when now - t0 reaches the window. -/
theorem C1_retention_correct (blocks : List MemoryBlock) (now : Nat) (b : MemoryBlock)
    (hb : b ∈ blocks) (hf : b.isFreed = false) :
    (now - b.allocationTime < retentionWindow →
      b ∈ (collectGarbage blocks now).2) ∧
    (retentionWindow ≤ now - b.allocationTime →
      b.address ∈ (collectGarbage blocks now).1 ∧ b ∉ (collectGarbage blocks now).2) :=
  ⟨fun hy => collectGarbage_keeps_young hb hf hy,
   fun ho => ⟨collectGarbage_frees_old hb hf ho, collectGarbage_removes_old ho⟩⟩

theorem C1_retention_correct_witness :
    let b : MemoryBlock := { address := 1, size := 4, allocationTime := 0 }
    (b ∈ [b] ∧ b.isFreed = false) ∧
    (b ∈ (collectGarbage [b] 4).2) ∧
    (b.address ∈ (collectGarbage [b] 5).1 ∧ b ∉ (collectGarbage [b] 5).2) := by
  refine ⟨⟨List.mem_cons_self _ _, rfl⟩, ?_, ?_⟩
  · exact (C1_retention_correct [_] 4 _ (List.mem_cons_self _ _) rfl).1 (by decide)
  · exact (C1_retention_correct [_] 5 _ (List.mem_cons_self _ _) rfl).2 (by decide)

/-- C4: registering a null address takes the early-return branch (the
InvalidAddress condition), creates no record and leaves the live set, and
hence the live count, unchanged. -/
theorem C4_register_null_noop (blocks : List MemoryBlock) (size now : Nat) :
    addMemoryBlock blocks 0 size now = (RegisterResult.invalidAddress, blocks) := by
  simp [addMemoryBlock]

theorem addMemoryBlock_isFreed {blocks : List MemoryBlock} {a sz t : Nat} {b : MemoryBlock}
    (hs : ∀ c ∈ blocks, c.isFreed = false)
    (hb : b ∈ (addMemoryBlock blocks a sz t).2) : b.isFreed = false := by
  unfold addMemoryBlock at hb
  by_cases ha : a = 0
  · rw [if_pos ha] at hb
    exact hs b hb
  · rw [if_neg ha] at hb
    rcases List.mem_append.mp hb with h | h
    · exact hs b h
    · rcases List.mem_singleton.mp h with rfl
      rfl

theorem foldl_applyOp_isFreed (ops : List GCOp) (s : List MemoryBlock × List Nat)
    (hs : ∀ b ∈ s.1, b.isFreed = false) :
    ∀ b ∈ (ops.foldl applyOp s).1, b.isFreed = false := by
  induction ops generalizing s with
  | nil => exact hs
  | cons op ops ih =>
    refine ih (applyOp s op) ?_
    cases op with
    | regOp a sz t =>
      intro b hb
      simp only [applyOp] at hb
      exact addMemoryBlock_isFreed hs hb
    | sweepOp t =>
      intro b hb
      simp only [applyOp] at hb
      exact (collectGarbage_kept_spec hb).2.1
    | shutdownOp =>
      intro b hb
      simp only [applyOp, destroyAll] at hb
      cases hb

/-- C9: in every state reachable from the empty registry by register
calls, sweeps and the destructor release loop, every stored block has its
freed flag equal to false (no operation ever sets it to true), and a block
reclaimed by a sweep is removed from the live set in that same sweep, so
the stored records and the live records coincide. -/
theorem C9_isFreed_invariant (ops : List GCOp) :
    (∀ b ∈ (runOps ops).1, b.isFreed = false) ∧
    (∀ (blocks : List MemoryBlock) (now : Nat) (b : MemoryBlock),
      b ∈ blocks → retentionWindow ≤ now - b.allocationTime →
      b ∉ (collectGarbage blocks now).2) :=
  ⟨foldl_applyOp_isFreed ops ([], []) (fun _ hb => absurd hb (List.not_mem_nil _)),
   fun _ _ _ _ ho => collectGarbage_removes_old ho⟩

theorem C9_isFreed_invariant_witness :
    ({ address := 1, size := 4, allocationTime := 0 } : MemoryBlock).isFreed = false ∧
    ({ address := 1, size := 4, allocationTime := 0 } : MemoryBlock) ∉
      (collectGarbage [{ address := 1, size := 4, allocationTime := 0 }] 5).2 :=
  ⟨(C9_isFreed_invariant [GCOp.regOp 1 4 0]).1 _ (by decide),
   (C9_isFreed_invariant []).2 [{ address := 1, size := 4, allocationTime := 0 }] 5 _
     (by decide) (by decide)⟩

/-- C2 counterexample: registering address 1 twice from the empty registry
takes the push_back branch both times and leaves two simultaneously-live
records for address 1 — no DuplicateAddress failure exists in the code and
the second call inserts a second record. -/
theorem C2_counterexample :
    (createObject (createObject [] 1 4 0).2 1 4 0).1 = RegisterResult.ok ∧
    addrsOf (createObject (createObject [] 1 4 0).2 1 4 0).2 = [1, 1] := by
  decide

/-- C2 amended: a second register call for an address that is already
present in the registry does not fail and does not leave the registry
unchanged: it unconditionally appends a second record for that address
(the code performs no duplicate check; checkExistingAllocation exists but
is not consulted by the registration path). -/
theorem C2_register_duplicates (blocks : List MemoryBlock) (a size now : Nat)
    (ha : a ≠ 0) (hlive : checkExistingAllocation blocks a = true) :
    addMemoryBlock blocks a size now =
      (RegisterResult.ok,
        blocks ++ [{ address := a, size := size, allocationTime := now }]) := by
  simp [addMemoryBlock, ha]

theorem C2_register_duplicates_witness :
    addMemoryBlock [{ address := 1, size := 4, allocationTime := 0 }] 1 4 3 =
      (RegisterResult.ok,
        [{ address := 1, size := 4, allocationTime := 0 },
         { address := 1, size := 4, allocationTime := 3 }]) :=
  C2_register_duplicates [{ address := 1, size := 4, allocationTime := 0 }] 1 4 3
    (by decide) (by decide)

theorem collectGarbage_count_le (blocks : List MemoryBlock) (now : Nat) (a : Nat) :
    ((collectGarbage blocks now).1).count a +
      (addrsOf (collectGarbage blocks now).2).count a ≤
      (addrsOf blocks).count a := by
  induction blocks with
  | nil => simp [collectGarbage, addrsOf]
  | cons b bs ih =>
    by_cases hf : b.isFreed
    · rw [collectGarbage_cons_freed hf]
      have : (addrsOf (b :: bs)).count a = (addrsOf bs).count a +
          (if b.address == a then 1 else 0) := by
        simp [addrsOf, List.count_cons]
      rw [this]
      omega
    · have hf2 : b.isFreed = false := Bool.eq_false_iff.mpr hf
      by_cases ho : retentionWindow ≤ now - b.allocationTime
      · have e1 : (collectGarbage (b :: bs) now).1 =
            b.address :: (collectGarbage bs now).1 := by
          rw [collectGarbage_cons_old hf2 ho]
        have e2 : (collectGarbage (b :: bs) now).2 = (collectGarbage bs now).2 := by
          rw [collectGarbage_cons_old hf2 ho]
        have h1 : ((b.address :: (collectGarbage bs now).1)).count a =
            ((collectGarbage bs now).1).count a + (if b.address == a then 1 else 0) := by
          simp [List.count_cons]
        have h2 : (addrsOf (b :: bs)).count a = (addrsOf bs).count a +
            (if b.address == a then 1 else 0) := by
          simp [addrsOf, List.count_cons]
        rw [e1, e2, h1, h2]
        omega
      · have e1 : (collectGarbage (b :: bs) now).1 = (collectGarbage bs now).1 := by
          rw [collectGarbage_cons_young hf2 (Nat.not_le.mp ho)]
        have e2 : (collectGarbage (b :: bs) now).2 =
            b :: (collectGarbage bs now).2 := by
          rw [collectGarbage_cons_young hf2 (Nat.not_le.mp ho)]
        have h1 : (addrsOf (b :: (collectGarbage bs now).2)).count a =
            (addrsOf (collectGarbage bs now).2).count a +
            (if b.address == a then 1 else 0) := by
          simp [addrsOf, List.count_cons]
        have h2 : (addrsOf (b :: bs)).count a = (addrsOf bs).count a +
            (if b.address == a then 1 else 0) := by
          simp [addrsOf, List.count_cons]
        rw [e1, e2, h1, h2]
        omega

theorem destroyAll_count_le (blocks : List MemoryBlock) (a : Nat) :
    ((destroyAll blocks).1).count a ≤ (addrsOf blocks).count a := by
  unfold destroyAll addrsOf
  exact ((List.filter_sublist blocks).map (fun b => b.address)).count_le a

theorem addMemoryBlock_count (blocks : List MemoryBlock) (x sz t a : Nat) :
    (addrsOf (addMemoryBlock blocks x sz t).2).count a ≤
      (addrsOf blocks).count a + (if x == a then 1 else 0) := by
  by_cases hx : x = 0
  · have e : (addMemoryBlock blocks x sz t).2 = blocks := by
      rw [addMemoryBlock, if_pos hx]
    rw [e]
    omega
  · have e : (addMemoryBlock blocks x sz t).2 =
        blocks ++ [{ address := x, size := sz, allocationTime := t }] := by
      rw [addMemoryBlock, if_neg hx]
    have e2 : addrsOf (blocks ++ [{ address := x, size := sz, allocationTime := t }]) =
        addrsOf blocks ++ [x] := by
      simp [addrsOf]
    have e3 : ([x] : List Nat).count a = if x == a then 1 else 0 := by
      simp [List.count_cons]
    rw [e, e2, List.count_append, e3]

theorem foldl_applyOp_count (ops : List GCOp) (s : List MemoryBlock × List Nat) (a : Nat) :
    ((ops.foldl applyOp s).2).count a + (addrsOf (ops.foldl applyOp s).1).count a ≤
      s.2.count a + (addrsOf s.1).count a + (registeredAddrs ops).count a := by
  induction ops generalizing s with
  | nil => simp [registeredAddrs]
  | cons op ops ih =>
    have h := ih (applyOp s op)
    rw [List.foldl_cons]
    cases op with
    | regOp x sz t =>
      have hstep := addMemoryBlock_count s.1 x sz t a
      have hreg : (registeredAddrs (GCOp.regOp x sz t :: ops)).count a =
          (registeredAddrs ops).count a + (if x == a then 1 else 0) := by
        simp [registeredAddrs, List.count_cons]
      simp only [applyOp] at h ⊢
      rw [hreg]
      omega
    | sweepOp t =>
      have hstep := collectGarbage_count_le s.1 t a
      have hreg : registeredAddrs (GCOp.sweepOp t :: ops) = registeredAddrs ops := by
        simp [registeredAddrs]
      simp only [applyOp] at h ⊢
      rw [hreg]
      rw [List.count_append] at h
      omega
    | shutdownOp =>
      have hstep := destroyAll_count_le s.1 a
      have hreg : registeredAddrs (GCOp.shutdownOp :: ops) = registeredAddrs ops := by
        simp [registeredAddrs]
      simp only [applyOp] at h ⊢
      rw [hreg]
      rw [List.count_append] at h
      have e : addrsOf (destroyAll s.1).2 = ([] : List Nat) := by
        rw [destroyAll]
        simp [addrsOf]
      rw [e, List.count_nil] at h
      omega

/-- C3 counterexample: register address 1 at time 0 and again at time 3
(the code permits the duplicate), sweep at time 5 and again at time 8: the
sweep at time 5 frees address 1 and removes that record, yet the later
sweep at time 8 frees address 1 again — the release log names address 1
twice, so the release paths do not release a tracked address at most once
across the lifetime of the registry. -/
theorem C3_counterexample :
    (runOps [GCOp.regOp 1 4 0, GCOp.regOp 1 4 3, GCOp.sweepOp 5, GCOp.sweepOp 8]).2 =
        [1, 1] ∧
    ¬ ((runOps [GCOp.regOp 1 4 0, GCOp.regOp 1 4 3, GCOp.sweepOp 5,
        GCOp.sweepOp 8]).2).Nodup := by
  decide

/-- C3 amended: on every trace whose register calls use pairwise-distinct
addresses (no address is registered while already live and no freed
address is registered again), the sweep and destructor release paths
together release any given address at most once across the lifetime of the
registry: the cumulative release log holds no duplicate. -/
theorem C3_no_double_free (ops : List GCOp)
    (h : (registeredAddrs ops).Nodup) : ((runOps ops).2).Nodup := by
  rw [List.nodup_iff_count_le_one] at h ⊢
  intro a
  have hp := foldl_applyOp_count ops ([], []) a
  have hr := h a
  simp only [addrsOf, List.map_nil, List.count_nil] at hp
  unfold runOps
  omega

theorem C3_no_double_free_witness :
    ((runOps [GCOp.regOp 1 4 0, GCOp.regOp 2 4 0, GCOp.sweepOp 5,
        GCOp.shutdownOp]).2).Nodup :=
  C3_no_double_free [GCOp.regOp 1 4 0, GCOp.regOp 2 4 0, GCOp.sweepOp 5,
    GCOp.shutdownOp] (by decide)

/-- Embeds the smartptr template (src/main.cpp lines 190 to 231): the one
raw pointer member, with 0 standing for nullptr. -/
structure smartptr where
  ptr : Nat
  deriving DecidableEq, Repr

/-- Embeds the smartptr constructor (src/main.cpp line 197, default
argument nullptr): adopts the raw pointer; no allocation, no
registration, no release. -/
def smartptrMk (p : Nat) : smartptr := { ptr := p }

/-- Embeds the smartptr destructor (src/main.cpp line 201): the body is
empty, so no address is passed to delete. -/
def smartptrDestroy (_ : smartptr) : Option Nat := none

/-- Embeds the raw-pointer assignment operator of smartptr (src/main.cpp
lines 204 to 208): overwrites the held pointer and returns; no delete is
executed. Returns the handle after the assignment and the address passed
to delete, of which there is none. -/
def smartptrAssignRaw (h : smartptr) (p : Nat) : smartptr × Option Nat :=
  ({ ptr := p }, none)

/-- Embeds the smartptr move constructor (src/main.cpp lines 215 to 219):
the new handle takes the pointer of the source and the source is set to
nullptr. Returns the constructed handle, the source after the move, and
the address passed to delete, of which there is none. -/
def smartptrMoveConstruct (other : smartptr) : smartptr × smartptr × Option Nat :=
  ({ ptr := other.ptr }, { ptr := 0 }, none)

/-- Embeds the smartptr move assignment operator (src/main.cpp lines 221
to 230) for two distinct handle objects (the source guards the
self-assignment case by object identity and then does nothing). The body
executes delete on the pointer the destination currently holds, then
takes the pointer of the source and nulls the source. Returns the
destination after, the source after, and the address passed to delete
(none when the destination held nullptr, since deleting a null pointer
releases nothing). -/
def smartptrMoveAssign (dest other : smartptr) : smartptr × smartptr × Option Nat :=
  ({ ptr := other.ptr }, { ptr := 0 },
    if dest.ptr = 0 then none else some dest.ptr)

/-- Effect of a reified delete on a model heap from addresses to stored
values: a deleted address no longer holds a value. -/
def applyDelete {α : Type} (heap : Nat → Option α) : Option Nat → Nat → Option α
  | none => heap
  | some d => fun x => if x = d then none else heap x

/-- Embeds the dereference and member access operators of smartptr
(src/main.cpp lines 209 and 210): the value the heap stores at the held
address. -/
def smartptrDeref {α : Type} (heap : Nat → Option α) (h : smartptr) : Option α :=
  heap h.ptr

/-- C6: evaluation at the failing input. Move assignment between a handle
holding address 1 and a handle holding address 2 passes address 1 — the
address the destination held — to delete: a handle operation that
releases memory, although the comments of the source (src/main.cpp lines
199 to 203) state that every release is delegated to the collector to
avoid a double free. The destructor, the move constructor and the
raw-pointer assignment release nothing. -/
theorem C6_move_assign_releases :
    smartptrMoveAssign { ptr := 1 } { ptr := 2 } =
      ({ ptr := 2 }, { ptr := 0 }, some 1) ∧
    smartptrDestroy { ptr := 1 } = none ∧
    (smartptrMoveConstruct { ptr := 1 }).2.2 = none ∧
    (smartptrAssignRaw { ptr := 1 } 2).2 = none := by
  decide

/-- C7: moving out of a handle holding a non-null address leaves the
source handle empty and makes the destination own exactly that address,
and the destination then dereferences the value originally stored there.
For move assignment the destination must not already hold the moved
address (the one-owner-per-address discipline), because the address the
destination held is passed to delete. -/
theorem C7_move_transfers (α : Type) (heap : Nat → Option α) (src dest : smartptr)
    (v : α) (hv : heap src.ptr = some v) (hne : dest.ptr ≠ src.ptr) :
    ((smartptrMoveConstruct src).1.ptr = src.ptr ∧
      (smartptrMoveConstruct src).2.1.ptr = 0 ∧
      smartptrDeref heap (smartptrMoveConstruct src).1 = some v) ∧
    ((smartptrMoveAssign dest src).1.ptr = src.ptr ∧
      (smartptrMoveAssign dest src).2.1.ptr = 0 ∧
      smartptrDeref (applyDelete heap (smartptrMoveAssign dest src).2.2)
        (smartptrMoveAssign dest src).1 = some v) := by
  refine ⟨⟨rfl, rfl, hv⟩, rfl, rfl, ?_⟩
  show applyDelete heap (if dest.ptr = 0 then none else some dest.ptr) src.ptr = some v
  by_cases h0 : dest.ptr = 0
  · rw [if_pos h0]
    exact hv
  · rw [if_neg h0]
    show (if src.ptr = dest.ptr then none else heap src.ptr) = some v
    rw [if_neg (fun he => hne he.symm)]
    exact hv

theorem C7_move_transfers_witness :
    ((smartptrMoveConstruct { ptr := 1 }).1.ptr = 1 ∧
      (smartptrMoveConstruct { ptr := 1 }).2.1.ptr = 0 ∧
      smartptrDeref (fun x => if x = 1 then some 42 else none)
        (smartptrMoveConstruct { ptr := 1 }).1 = some 42) ∧
    ((smartptrMoveAssign { ptr := 2 } { ptr := 1 }).1.ptr = 1 ∧
      (smartptrMoveAssign { ptr := 2 } { ptr := 1 }).2.1.ptr = 0 ∧
      smartptrDeref
        (applyDelete (fun x => if x = 1 then some 42 else none)
          (smartptrMoveAssign { ptr := 2 } { ptr := 1 }).2.2)
        (smartptrMoveAssign { ptr := 2 } { ptr := 1 }).1 = some 42) :=
  C7_move_transfers Nat (fun x => if x = 1 then some 42 else none)
    { ptr := 1 } { ptr := 2 } 42 rfl (by decide)

/-- C10: assigning a new raw address to a non-empty handle overwrites the
held address and passes nothing to delete; a live registry record for the
previously held address is untouched by the assignment, is retained by
every sweep before its retention window elapses, is freed by a sweep at
or after the window, and is released by the shutdown loop if still
present there. -/
theorem C10_raw_assign_no_release (h : smartptr) (p : Nat)
    (blocks : List MemoryBlock) (b : MemoryBlock)
    (hb : b ∈ blocks) (haddr : b.address = h.ptr) (hf : b.isFreed = false) :
    (smartptrAssignRaw h p).1.ptr = p ∧
    (smartptrAssignRaw h p).2 = none ∧
    (∀ now, now - b.allocationTime < retentionWindow →
      b ∈ (collectGarbage blocks now).2) ∧
    (∀ now, retentionWindow ≤ now - b.allocationTime →
      b.address ∈ (collectGarbage blocks now).1) ∧
    (b.address ≠ 0 → b.address ∈ (destroyAll blocks).1) := by
  refine ⟨rfl, rfl, fun now hy => collectGarbage_keeps_young hb hf hy,
    fun now ho => collectGarbage_frees_old hb hf ho, fun h0 => ?_⟩
  show b.address ∈ (blocks.filter (fun c => c.address ≠ 0)).map (fun c => c.address)
  exact List.mem_map_of_mem _ (List.mem_filter.mpr ⟨hb, decide_eq_true h0⟩)

theorem C10_raw_assign_no_release_witness :
    (smartptrAssignRaw { ptr := 1 } 2).1.ptr = 2 ∧
    (smartptrAssignRaw { ptr := 1 } 2).2 = none ∧
    (∀ now, now - ({ address := 1, size := 4, allocationTime := 0 } : MemoryBlock).allocationTime <
        retentionWindow →
      ({ address := 1, size := 4, allocationTime := 0 } : MemoryBlock) ∈
        (collectGarbage [{ address := 1, size := 4, allocationTime := 0 }] now).2) ∧
    (∀ now, retentionWindow ≤
        now - ({ address := 1, size := 4, allocationTime := 0 } : MemoryBlock).allocationTime →
      ({ address := 1, size := 4, allocationTime := 0 } : MemoryBlock).address ∈
        (collectGarbage [{ address := 1, size := 4, allocationTime := 0 }] now).1) ∧
    (({ address := 1, size := 4, allocationTime := 0 } : MemoryBlock).address ≠ 0 →
      ({ address := 1, size := 4, allocationTime := 0 } : MemoryBlock).address ∈
        (destroyAll [{ address := 1, size := 4, allocationTime := 0 }]).1) :=
  C10_raw_assign_no_release { ptr := 1 } 2
    [{ address := 1, size := 4, allocationTime := 0 }]
    { address := 1, size := 4, allocationTime := 0 }
    (List.mem_cons_self _ _) rfl rfl

/-- Outcome of the overloaded operator new: the thrown bad_alloc (the
OutOfMemory condition) or a returned pointer value, with 0 standing for a
null malloc result passed through to the caller. -/
inductive AllocResult where
  | oom
  | ok (addr : Nat)
  deriving DecidableEq, Repr

/-- Embeds the overloaded global operator new (src/main.cpp lines 239 to
256). The malloc result is an input of the model, 0 meaning the platform
allocator returned no memory; the thread-local isRecursive flag and the
registry vector are explicit state. Returns the outcome, the registry
after the call, and the flag after the call. With the flag set the malloc
result is returned as-is, with no null check and no registration.
Otherwise the flag is set, a null malloc result throws bad_alloc (the
throw leaves the flag set), and a non-null result is registered through
createObject before the flag is cleared. -/
def operatorNew (isRecursive : Bool) (mallocResult : Nat)
    (blocks : List MemoryBlock) (size now : Nat) :
    AllocResult × List MemoryBlock × Bool :=
  if isRecursive then (AllocResult.ok mallocResult, blocks, isRecursive)
  else if mallocResult = 0 then (AllocResult.oom, blocks, true)
  else (AllocResult.ok mallocResult,
    (createObject blocks mallocResult size now).2, false)

/-- C5 counterexample: on the nested re-entrant path (flag set) with the
platform allocator returning no memory, the call does not fail with
bad_alloc: the nested branch performs no null check and hands the null
result back to the caller as an ordinary pointer. -/
theorem C5_counterexample :
    (operatorNew true 0 [] 8 0).1 = AllocResult.ok 0 ∧
    (operatorNew true 0 [] 8 0).1 ≠ AllocResult.oom := by
  decide

/-- C5 amended: on the ordinary non-nested path an allocation failure
throws bad_alloc, which propagates to the caller with no record created
(and leaves the thread-local flag set); on the nested re-entrant path the
raw malloc result is returned unchecked, a null result included, and no
bad_alloc is raised there. -/
theorem C5_oom_propagates (blocks : List MemoryBlock) (size now mallocResult : Nat) :
    operatorNew false 0 blocks size now = (AllocResult.oom, blocks, true) ∧
    operatorNew true mallocResult blocks size now =
      (AllocResult.ok mallocResult, blocks, true) := by
  constructor
  · simp [operatorNew]
  · simp [operatorNew]

/-- Fuel-indexed model of operator new in which the registration step may
itself trigger further allocations (the registry vector growing inside
push_back); each such allocation re-enters operator new on the same
thread, with the thread-local flag still set by the outer call. The
nested list carries the malloc results of those inner allocations. The
fuel bounds the call depth: none means the fuel was exhausted before the
call tree terminated. -/
def operatorNewRec : Nat → Bool → Nat → List Nat → List MemoryBlock → Nat → Nat →
    Option (AllocResult × List MemoryBlock)
  | 0, _, _, _, _, _, _ => none
  | _ + 1, true, mallocResult, _, blocks, _, _ =>
    some (AllocResult.ok mallocResult, blocks)
  | fuel + 1, false, mallocResult, nested, blocks, size, now =>
    if mallocResult = 0 then some (AllocResult.oom, blocks)
    else if (nested.map (fun m => operatorNewRec fuel true m [] blocks size now)).all
        (fun r => r.isSome) then
      some (AllocResult.ok mallocResult,
        (createObject blocks mallocResult size now).2)
    else none

/-- C8: an allocation arriving while the thread is already inside the
registration path of another allocation (flag set) bypasses registration
and returns the raw malloc result with the registry unchanged; with this
guard the whole interception terminates at call depth two — fuel 2
already suffices for every input, whatever allocations the registration
step triggers — so the recursion is bounded. -/
theorem C8_reentrancy_bounded (fuel : Nat) (hfuel : 2 ≤ fuel)
    (flag : Bool) (mallocResult : Nat) (nested : List Nat)
    (blocks : List MemoryBlock) (size now : Nat) :
    operatorNewRec fuel true mallocResult nested blocks size now =
      some (AllocResult.ok mallocResult, blocks) ∧
    (operatorNewRec fuel flag mallocResult nested blocks size now).isSome = true := by
  obtain ⟨f, rfl⟩ : ∃ f, fuel = f + 1 := ⟨fuel - 1, by omega⟩
  obtain ⟨g, rfl⟩ : ∃ g, f = g + 1 := ⟨f - 1, by omega⟩
  refine ⟨rfl, ?_⟩
  cases flag with
  | true => rfl
  | false =>
    show (operatorNewRec (g + 1 + 1) false mallocResult nested blocks size now).isSome = true
    rw [operatorNewRec]
    by_cases hm : mallocResult = 0
    · rw [if_pos hm]
      rfl
    · rw [if_neg hm]
      have hall : ((nested.map
          (fun m => operatorNewRec (g + 1) true m [] blocks size now)).all
          (fun r => r.isSome)) = true := by
        rw [List.all_eq_true]
        intro r hr
        rcases List.mem_map.mp hr with ⟨m, hm2, rfl⟩
        rfl
      rw [if_pos hall]
      rfl

theorem C8_reentrancy_bounded_witness :
    operatorNewRec 2 true 5 [7, 9] [] 4 0 = some (AllocResult.ok 5, []) ∧
    (operatorNewRec 2 false 5 [7, 9] [] 4 0).isSome = true :=
  C8_reentrancy_bounded 2 (by decide) false 5 [7, 9] [] 4 0
